import Mathlib

/-!
Shallow embedding of `src/main.c` of the pre.transducers-in-c repository:
a minimal transducer engine built from tagged `Value`s, a pull-based
segmented stream (`ValueStreamRange`), and a Reducer/Transducer algebra
(filtering, mapping, composing).

Modelling conventions:
* C `float` payloads are modelled as integers (`Int`); every float the
  program manipulates is integral and the float arithmetic on them (sums
  and comparisons of small integers) is exact, so `Int` is faithful.
* Byte addresses are `Nat`; `NULL` pointers are `none : Option Nat`.
* Memory is a function `Nat → Int` giving the float stored at each byte
  address, threaded through a `Heap` state together with the next fresh
  address of the allocator and the list of addresses handed to
  `allocator_free`.  `allocator_alloc` (from the missing `allocator.h`)
  is modelled from the spec as returning fresh memory: it hands out the
  address `h.next` and bumps it.  Allocator identities are `Nat`s.
* Function pointers stored in structs are modelled by closed inductive
  types enumerating the functions actually installed by the program
  (`NextFn` for stream `next` capabilities, `Red` for reducer vtables,
  `Trans` for transducer vtables).  The `Red` constructors carry exactly
  the state the corresponding C closure structs carry; in-place mutation
  of a closure struct (the mapping reducer's `reducerResult`) becomes
  functional update of the returned `Red`.
* The C `assert`s in `accumulateFloat` are type-tag preconditions; the
  model is total and reads a `none` address as 0, which is exercised by
  no claim.
-/

namespace Transducers

/-- Float-cell contents of the address space. -/
abbrev Mem := Nat → Int

/-- Allocator-visible state: float memory, next fresh address (modelled
from the spec: `alloc(size) -> memory` returns fresh memory), and the
addresses released so far through `allocator_free`. -/
structure Heap where
  mem : Mem
  next : Nat
  freed : List Nat

/-- `enum TypeTags`: `TTAG_NULL`. -/
def TTAG_NULL : Nat := 0

/-- `enum TypeTags`: `TTAG_FLOAT`. -/
def TTAG_FLOAT : Nat := 1

/-- `struct Value` of main.c: tag, payload byte width, payload address
(`none` = NULL) and recorded allocator (`none` = NULL). -/
structure Value where
  type_tag : Nat
  element_size : Nat
  address : Option Nat
  allocator : Option Nat
deriving DecidableEq, Repr

/-- Read the float at an address; a NULL read is given the junk value 0
(the C program never performs one in the verified scenarios). -/
def readFM (m : Mem) : Option Nat → Int
  | none => 0
  | some a => m a

/-- `nullValue()`: compound literal setting only `.type_tag = TTAG_NULL`;
the remaining fields are zero-initialized (0 / NULL / NULL). -/
def nullValue : Value :=
  { type_tag := TTAG_NULL, element_size := 0, address := none, allocator := none }

/-- Modelled from the spec: `allocator_free` lives in the missing
`allocator.h`.  Per spec §4.1, release through an absent allocator is
inert ("borrowed Values carry no allocator, so release is naturally
inert"), and freeing a NULL pointer is a no-op; freeing an owned payload
releases that address through the allocator, recorded in `freed`. -/
def allocator_free (alloc : Option Nat) (addr : Option Nat) (h : Heap) : Heap :=
  match alloc, addr with
  | none, _ => h
  | some _, none => h
  | some _, some a => { h with freed := a :: h.freed }

/-- `freeValue`: calls `allocator_free(value->allocator, value->address)`
then clears the handle's `address` and `allocator` fields. -/
def freeValue (v : Value) (h : Heap) : Value × Heap :=
  ({ v with address := none, allocator := none },
   allocator_free v.allocator v.address h)

/-- `floatValue(f, allocator)`: allocates a fresh float cell via the
allocator, stores `f` there, and returns the Value by compound literal
setting `.type_tag`, `.element_size` and `.address` only — the
`.allocator` field is absent from the initializer, hence NULL. -/
def floatValue (f : Int) (_al : Nat) (h : Heap) : Value × Heap :=
  ({ type_tag := TTAG_FLOAT, element_size := 4, address := some h.next,
     allocator := none },
   { h with mem := fun a => if a = h.next then f else h.mem a, next := h.next + 4 })

/-- Address of the file-scope `static float zero = 0.0f` inside
`accumulateFloatZero`; a fixed address in the statics region, below every
buffer and allocation used in the concrete scenarios. -/
def accFloatZeroAddr : Nat := 256

/-- `accumulateFloat(input, current, allocator)`: reads both float
payloads and returns `floatValue` of their sum (the `assert`s on the two
type tags are preconditions, see the module comment). -/
def accumulateFloat (input current : Value) (al : Nat) (h : Heap) : Value × Heap :=
  floatValue (readFM h.mem input.address + readFM h.mem current.address) al h

/-- Modelled from the spec: `enum StreamErrorCode` lives in the missing
`stream_types.h`; spec §6 requires at least `NoError` and `ReadPastEnd`,
the two constants main.c uses. -/
inductive StreamErrorCode where
  | S_NoError
  | S_ReadPastEnd
deriving DecidableEq, Repr

/-- The `next` function pointers ever installed in a stream range by the
program: `floatArrayNext` (installed by `floatArrayVSR`) and
`zerosVSRNext` (installed by `failVSR`). -/
inductive NextFn where
  | floatArrayNext
  | zerosVSRNext
deriving DecidableEq, Repr

/-- `struct ValueStreamRange`: element typing of the current segment, its
bounds and cursor (byte addresses), the sticky error field, and the
installed `next` capability. -/
structure ValueStreamRange where
  type_tag : Nat
  element_size : Nat
  start : Nat
  end_ : Nat
  cursor : Nat
  error : StreamErrorCode
  next : NextFn
deriving DecidableEq, Repr

/-- Address of the file-scope `static uint8_t const zeros[256]` inside
`zerosVSRNext`. -/
def zerosAddr : Nat := 0

/-- `zerosVSRNext`: installs the static 256-byte zeros buffer as the
current segment (tag 0, element size 1); leaves `error` untouched (its
return value, `range->error`, is discarded by the caller). -/
def zerosVSRNextRun (r : ValueStreamRange) : ValueStreamRange :=
  { r with type_tag := 0, element_size := 1, start := zerosAddr,
           cursor := zerosAddr, end_ := zerosAddr + 256 }

/-- `failVSR(range, error)`: latches the error, installs `zerosVSRNext`
as the next capability and runs it once. -/
def failVSR (r : ValueStreamRange) (e : StreamErrorCode) : ValueStreamRange :=
  zerosVSRNextRun { r with error := e, next := NextFn.zerosVSRNext }

/-- Dispatch of `range->next(range)` over the installed capability;
`floatArrayNext` is `failVSR(range, S_ReadPastEnd)`. -/
def runNextFn : NextFn → ValueStreamRange → ValueStreamRange
  | NextFn.floatArrayNext, r => failVSR r StreamErrorCode.S_ReadPastEnd
  | NextFn.zerosVSRNext, r => zerosVSRNextRun r

/-- `floatArrayVSR(range, values, count)` over a buffer of `count` floats
whose first byte is at `base` (C pointer arithmetic: `values + count` is
`base + 4*count`). -/
def floatArrayVSR (base count : Nat) : ValueStreamRange :=
  { type_tag := TTAG_FLOAT, element_size := 4, start := base,
    end_ := base + 4 * count, cursor := base,
    error := StreamErrorCode.S_NoError, next := NextFn.floatArrayNext }

/-- The function-local `static struct Value zero` of `nextValueVSR`:
zero-initialized, so tag `TTAG_NULL`, size 0, NULL address, NULL
allocator — contents identical to `nullValue`. -/
def vsrStaticZero : Value :=
  { type_tag := TTAG_NULL, element_size := 0, address := none, allocator := none }

/-- The `while (range->error == S_NoError)` loop body of `nextValueVSR`,
with explicit fuel for the unbounded retry loop.  One iteration: if the
cursor is inside the segment, return a borrowed Value (compound literal
setting tag, size and address only — allocator NULL) and advance the
cursor by `element_size`; otherwise run `range->next(range)` and retry.
On a non-`NoError` error the loop exits and the static zero Value is
returned with the range untouched. -/
def vsrLoop : Nat → ValueStreamRange → Value × ValueStreamRange
  | 0, r => (vsrStaticZero, r)
  | fuel + 1, r =>
    if r.error = StreamErrorCode.S_NoError then
      if r.cursor < r.end_ then
        ({ type_tag := r.type_tag, element_size := r.element_size,
           address := some r.cursor, allocator := none },
         { r with cursor := r.cursor + r.element_size })
      else
        vsrLoop fuel (runNextFn r.next r)
    else
      (vsrStaticZero, r)

/-- `nextValueVSR(range)`.  Every installed `next` capability produces a
segment with `cursor < end` (the zeros segment), so the retry loop of the
C code runs at most two iterations; fuel 2 is exact
(`vsrLoop_fuel_stable` below proves fuel-independence from 2 on). -/
def nextValueVSR (r : ValueStreamRange) : Value × ValueStreamRange :=
  vsrLoop 2 r

/-- Stream state after `k` calls to `nextValueVSR`. -/
def pullState (r : ValueStreamRange) : Nat → ValueStreamRange
  | 0 => r
  | k + 1 => (nextValueVSR (pullState r k)).2

/-- Value returned by the `(k+1)`-th call to `nextValueVSR` (0-indexed
pull `k`). -/
def pullRes (r : ValueStreamRange) (k : Nat) : Value :=
  (nextValueVSR (pullState r k)).1

/-- The terminal state a `floatArrayVSR` stream reaches on exhaustion:
`failVSR` latched `S_ReadPastEnd` and installed the zeros segment. -/
def exhaustedVSR : ValueStreamRange :=
  { type_tag := 0, element_size := 1, start := zerosAddr,
    end_ := zerosAddr + 256, cursor := zerosAddr,
    error := StreamErrorCode.S_ReadPastEnd, next := NextFn.zerosVSRNext }

/-- The reducer closures the program builds (`struct Reducer` plus the
concrete closure structs that embed it as first field).  Each constructor
carries exactly the captured state of its C struct:
`FilteringReducer` captures the predicate and the downstream `step`;
`MappingReducer` captures the inner reducer, its mutable `reducerResult`
accumulator, and `step`; `ComposingReducer` captures `reducers[0]`, the
head of the chain (the rest of the `reducers` array is reachable from it
through the captured `step` pointers, and the `reducersResult` array is
written once at construction and never read). -/
inductive Red where
  | idR
  | accFloatR
  | filtering (pred : Value → Mem → Bool) (step : Red)
  | mapping (inner : Red) (innerAcc : Value) (step : Red)
  | composing (chain0 : Red)

/-- `reducer->zero(reducer, allocator)` for each closure: `idReducerZero`,
`filteringReducerZero` and `composingReducerZero` return `nullValue()`;
`accumulateFloatZero` returns a borrowed Value over the static float 0;
`mappingReducerZero` delegates to the step's zero.  None of them touches
the allocator or memory, so the model is pure. -/
def zeroF : Red → Value
  | Red.idR => nullValue
  | Red.accFloatR =>
    { type_tag := TTAG_FLOAT, element_size := 4,
      address := some accFloatZeroAddr, allocator := none }
  | Red.filtering _ _ => nullValue
  | Red.mapping _ _ step => zeroF step
  | Red.composing _ => nullValue

/-- `reducer->apply(reducer, input, current, allocator)` for each closure.
`idReducerApply` returns the input; `accumulateFloatApply` delegates to
`accumulateFloat`; `filteringReducerApply` tests the predicate and either
delegates to the step or returns `current`; `mappingReducerApply` updates
the captured `reducerResult` in place and forwards the updated value to
the step; `composingReducerApply` forwards to `reducers[0]`.  The updated
closure state is returned alongside the value and heap. -/
def applyF : Red → Value → Value → Nat → Heap → Value × Red × Heap
  | Red.idR, input, _, _, h => (input, Red.idR, h)
  | Red.accFloatR, input, current, al, h =>
    let r := accumulateFloat input current al h
    (r.1, Red.accFloatR, r.2)
  | Red.filtering p step, input, current, al, h =>
    if p input h.mem then
      let r := applyF step input current al h
      (r.1, Red.filtering p r.2.1, r.2.2)
    else
      (current, Red.filtering p step, h)
  | Red.mapping inner acc step, input, current, al, h =>
    let ri := applyF inner input acc al h
    let rs := applyF step ri.1 current al ri.2.2
    (rs.1, Red.mapping ri.2.1 ri.1 rs.2.1, rs.2.2)
  | Red.composing c, input, current, al, h =>
    let r := applyF c input current al h
    (r.1, Red.composing r.2.1, r.2.2)

/-- The transducer closures of the program (`struct Transducer` plus its
concrete closure structs): `FilteringTransducer` captures a predicate,
`MappingTransducer` captures the inner reducer, `ComposingTransducer`
captures the ordered transducer array. -/
inductive Trans where
  | filteringT (pred : Value → Mem → Bool)
  | mappingT (inner : Red)
  | composingT (ts : List Trans)

mutual

/-- `transducer->apply(transducer, step, allocator)` for each closure.
`filteringTransducerApply` builds a `FilteringReducer` over `step`;
`mappingTransducerApply` builds a `MappingReducer` whose `reducerResult`
starts at the inner reducer's zero; `composingTransducerApply` folds the
transducer array from the last entry to the first over `step`
(`chainApply`) and wraps the head of the chain in a `ComposingReducer`.
Closure-struct allocations return memory the model represents by the
`Red` value itself, so the allocator argument is not threaded here. -/
def transApply : Trans → Red → Red
  | Trans.filteringT p, step => Red.filtering p step
  | Trans.mappingT inner, step => Red.mapping inner (zeroF inner) step
  | Trans.composingT ts, step => Red.composing (chainApply ts step)

/-- The chain-building loop of `composingTransducerApply`:
`chain[N-1] = transducers[N-1].apply(step)`,
`chain[i] = transducers[i].apply(chain[i+1])`; the result is `chain[0]`. -/
def chainApply : List Trans → Red → Red
  | [], step => step
  | t :: ts, step => transApply t (chainApply ts step)

end

/-- Driving a list of elements through a reducer: the fold
`current := reducer.apply(element, current)` threading the evolving
closure state and heap (the loop body shared by `transduceFloatArray`
and, via the stream, `reduceStream`). -/
def foldDrive : List Value → Red → Value → Nat → Heap → Value × Red × Heap
  | [], red, acc, _, h => (acc, red, h)
  | v :: vs, red, acc, al, h =>
    let r := applyF red v acc al h
    foldDrive vs r.2.1 r.1 al r.2.2

/-- `struct Reducer` as the open interface it is in C: a pair of function
pointers over an arbitrary private state `σ` (covering the allocator, the
heap and any mutable closure state). -/
structure AbsReducer (σ : Type) where
  zero : σ → Value × σ
  apply : Value → Value → σ → Value × σ

/-- The `while ((element = nextValueVSR(range), range->error == S_NoError))`
loop of `reduceStream`, with fuel for the unbounded loop: pull one
element, and while the error field is still `NoError` fold it into the
accumulator and continue; otherwise return the accumulator. -/
def reduceLoop {σ : Type} : Nat → ValueStreamRange → AbsReducer σ → Value → σ →
    Value × ValueStreamRange × σ
  | 0, r, _, acc, s => (acc, r, s)
  | fuel + 1, r, red, acc, s =>
    let pulled := nextValueVSR r
    if pulled.2.error = StreamErrorCode.S_NoError then
      let stepped := red.apply pulled.1 acc s
      reduceLoop fuel pulled.2 red stepped.1 stepped.2
    else
      (acc, pulled.2, s)

/-- `reduceStream(range, reducer, allocator)`: seeds the accumulator with
`reducer_zero` and runs the driving loop. -/
def reduceStream {σ : Type} (fuel : Nat) (r : ValueStreamRange)
    (red : AbsReducer σ) (s : σ) : Value × ValueStreamRange × σ :=
  let z := red.zero s
  reduceLoop fuel r red z.1 z.2

/-- Modelled from the spec: the driving algorithm of §4.3, written with
the spec's control shape — pull, break out of the loop as soon as
`range.error != NoError` (without applying the reducer to the sentinel
element), otherwise replace the accumulator with `reducer.apply`. -/
def specReduceLoop {σ : Type} : Nat → ValueStreamRange → AbsReducer σ → Value → σ →
    Value × ValueStreamRange × σ
  | 0, r, _, acc, s => (acc, r, s)
  | fuel + 1, r, red, acc, s =>
    let pulled := nextValueVSR r
    if pulled.2.error ≠ StreamErrorCode.S_NoError then
      (acc, pulled.2, s)
    else
      let stepped := red.apply pulled.1 acc s
      specReduceLoop fuel pulled.2 red stepped.1 stepped.2

/-- Modelled from the spec: §4.3's `reduce(range, reducer, allocator)` —
`accumulator = reducer.zero(allocator)` then the driving loop, returning
the final accumulator. -/
def specReduce {σ : Type} (fuel : Nat) (r : ValueStreamRange)
    (red : AbsReducer σ) (s : σ) : Value × ValueStreamRange × σ :=
  let z := red.zero s
  specReduceLoop fuel r red z.1 z.2

/-- The closed reducer closures packaged as an `AbsReducer` over the
state they thread: the closure value itself and the heap (the allocator
identity `al` is captured, as C passes it on every call). -/
def redReducer (al : Nat) : AbsReducer (Red × Heap) where
  zero := fun s => (zeroF s.1, s)
  apply := fun input acc s =>
    let r := applyF s.1 input acc al s.2
    (r.1, r.2.1, r.2.2)

/-- `reduceStream` instantiated at a closed reducer closure. -/
def reduceStreamR (fuel : Nat) (r : ValueStreamRange) (red : Red) (al : Nat)
    (h : Heap) : Value × ValueStreamRange × Red × Heap :=
  reduceStream fuel r (redReducer al) (red, h)

/-- The borrowed element Values a driver constructs over a float buffer:
`{ TTAG_FLOAT, sizeof(float), &values[i], 0 }` for `i = 0..m-1`, the
buffer's first byte being at address `c`. -/
def elemsFrom (c m : Nat) : List Value :=
  (List.range' c m 4).map fun a =>
    { type_tag := TTAG_FLOAT, element_size := 4,
      address := some a, allocator := none }

/-- `transduceFloatArray(values, valuesCount, transducer, allocator)`
over a buffer whose first byte is at `base`: applies the transducer to a
fresh `idReducer`, seeds the accumulator with the produced reducer's
zero, and folds the borrowed element Values in index order. -/
def transduceFloatArray (base n : Nat) (t : Trans) (al : Nat) (h : Heap) :
    Value × Red × Heap :=
  let red := transApply t Red.idR
  foldDrive (elemsFrom base n) red (zeroF red) al h

/-- `positiveFloatsOnly(value)`: tag is `TTAG_FLOAT` and the float behind
`value.address` is strictly positive. -/
def positiveFloatsOnly (v : Value) (m : Mem) : Bool :=
  v.type_tag == TTAG_FLOAT && decide ((0 : Int) < readFM m v.address)

/-- Memory backing main.c's third scenario: the eight-float buffer
`{-1, 1, -2, 2, 3, -3, 4, -4}` laid out from byte address 512, with the
statics region (including the static float 0 at `accFloatZeroAddr`)
reading as 0. -/
def demoMem : Mem := fun a =>
  if a < 512 then 0
  else [(-1 : Int), 1, -2, 2, 3, -3, 4, -4].getD ((a - 512) / 4) 0

/-- Initial heap of the third scenario: the demo buffer installed, fresh
allocations starting at 1024, nothing freed. -/
def demoHeap : Heap := { mem := demoMem, next := 1024, freed := [] }

/-- The pipeline of main.c's third scenario: composing
`[filteringTransducer(positiveFloatsOnly), mappingTransducer(accumulator)]`
applied to an identity-like terminal step. -/
def demoPipeline : Red :=
  transApply
    (Trans.composingT [Trans.filteringT positiveFloatsOnly,
                       Trans.mappingT Red.accFloatR])
    Red.idR

/-! Helper lemmas. -/

/-- A range whose cursor is strictly inside the segment is served by the
first loop iteration, whatever the fuel. -/
theorem vsrLoop_of_cursor_lt (k : Nat) (r : ValueStreamRange)
    (hc : r.cursor < r.end_) : vsrLoop (k + 1) r = vsrLoop 1 r := by
  by_cases he : r.error = StreamErrorCode.S_NoError <;> simp [vsrLoop, he, hc]

/-- Every installed `next` capability produces a nonempty current
segment (the zeros segment spans 256 bytes). -/
theorem runNextFn_cursor_lt (n : NextFn) (r : ValueStreamRange) :
    (runNextFn n r).cursor < (runNextFn n r).end_ := by
  cases n <;> simp [runNextFn, failVSR, zerosVSRNextRun, zerosAddr]

/-- Fuel 2 is exact for the retry loop of `nextValueVSR`: any larger
fuel computes the same pull. -/
theorem vsrLoop_fuel_stable (k : Nat) (r : ValueStreamRange) (hk : 2 ≤ k) :
    vsrLoop k r = nextValueVSR r := by
  obtain ⟨k, rfl⟩ : ∃ j, k = j + 2 := ⟨k - 2, by omega⟩
  by_cases he : r.error = StreamErrorCode.S_NoError
  · by_cases hc : r.cursor < r.end_
    · calc vsrLoop (k + 1 + 1) r = vsrLoop 1 r := vsrLoop_of_cursor_lt (k + 1) r hc
        _ = nextValueVSR r := (vsrLoop_of_cursor_lt 1 r hc).symm
    · have hcl := runNextFn_cursor_lt r.next r
      simp [nextValueVSR, vsrLoop, he, hc, hcl]
  · simp [nextValueVSR, vsrLoop, he]

/-- A pull with the cursor strictly inside the segment serves a borrowed
Value and advances the cursor. -/
theorem nextValueVSR_serve (r : ValueStreamRange)
    (he : r.error = StreamErrorCode.S_NoError) (hc : r.cursor < r.end_) :
    nextValueVSR r =
      ({ type_tag := r.type_tag, element_size := r.element_size,
         address := some r.cursor, allocator := none },
       { r with cursor := r.cursor + r.element_size }) := by
  simp [nextValueVSR, vsrLoop, he, hc]

/-- A pull on a range with a latched error returns the static zero Value
and leaves the range untouched. -/
theorem nextValueVSR_error (r : ValueStreamRange)
    (he : r.error ≠ StreamErrorCode.S_NoError) :
    nextValueVSR r = (vsrStaticZero, r) := by
  simp [nextValueVSR, vsrLoop, he]

/-- Unfolded behavior of the pull after an `advance`: the new segment is
nonempty, so one more loop iteration settles it. -/
theorem nextValueVSR_advance (r : ValueStreamRange)
    (he : r.error = StreamErrorCode.S_NoError) (hc : ¬ r.cursor < r.end_) :
    nextValueVSR r = nextValueVSR (runNextFn r.next r) := by
  have h1 := vsrLoop_of_cursor_lt 1 _ (runNextFn_cursor_lt r.next r)
  simp only [nextValueVSR, vsrLoop, he, hc, ite_true, ite_false, reduceIte]
  simpa using h1.symm

/-- State trace of a single-segment float stream: the cursor walks the
buffer in 4-byte steps while `error` stays `S_NoError`; the pull past the
end latches `S_ReadPastEnd` and installs the zeros segment; the state is
then a fixed point of further pulls. -/
theorem pullState_floatArrayVSR (base n : Nat) : ∀ k,
    pullState (floatArrayVSR base n) k =
      if k ≤ n then { floatArrayVSR base n with cursor := base + 4 * k }
      else exhaustedVSR := by
  intro k
  induction k with
  | zero => simp [pullState, floatArrayVSR]
  | succ k ih =>
    rw [pullState, ih]
    by_cases hk : k ≤ n
    · by_cases hlt : k < n
      · have : base + 4 * k < base + 4 * n := by omega
        simp [nextValueVSR, vsrLoop, floatArrayVSR, hk, this,
          show k + 1 ≤ n from hlt]
        omega
      · have hkn : k = n := by omega
        subst hkn
        have hnc : ¬ base + 4 * k < base + 4 * k := by omega
        simp [nextValueVSR, vsrLoop, floatArrayVSR, hk, hnc, runNextFn,
          failVSR, zerosVSRNextRun, exhaustedVSR, show ¬ k + 1 ≤ k by omega]
    · simp [nextValueVSR, vsrLoop, exhaustedVSR, hk, show ¬ k + 1 ≤ n by omega]

/-- The driving loop of `reduceStream` and the spec's driving loop agree
step for step, for every fuel, starting accumulator and reducer state. -/
theorem reduceLoop_eq_specReduceLoop {σ : Type} (red : AbsReducer σ) :
    ∀ (fuel : Nat) (r : ValueStreamRange) (acc : Value) (s : σ),
      reduceLoop fuel r red acc s = specReduceLoop fuel r red acc s := by
  intro fuel
  induction fuel with
  | zero => intro r acc s; rfl
  | succ fuel ih =>
    intro r acc s
    by_cases he : (nextValueVSR r).2.error = StreamErrorCode.S_NoError <;>
      simp [reduceLoop, specReduceLoop, he, ih]

/-- Driving a list through a `ComposingReducer` wrapper is driving it
through the wrapped chain head, rewrapping the updated chain. -/
theorem foldDrive_composing :
    ∀ (es : List Value) (c : Red) (acc : Value) (al : Nat) (h : Heap),
      foldDrive es (Red.composing c) acc al h =
        ((foldDrive es c acc al h).1,
         Red.composing (foldDrive es c acc al h).2.1,
         (foldDrive es c acc al h).2.2) := by
  intro es
  induction es with
  | nil => intro c acc al h; rfl
  | cons v vs ih => intro c acc al h; simp [foldDrive, applyF, ih]

/-- Driving a list through a `FilteringReducer` over a heap-independent
predicate is driving the filtered sublist through the step, rewrapping
the updated step. -/
theorem foldDrive_filtering (q : Value → Bool) :
    ∀ (es : List Value) (step : Red) (acc : Value) (al : Nat) (h : Heap),
      foldDrive es (Red.filtering (fun x _ => q x) step) acc al h =
        ((foldDrive (es.filter q) step acc al h).1,
         Red.filtering (fun x _ => q x) (foldDrive (es.filter q) step acc al h).2.1,
         (foldDrive (es.filter q) step acc al h).2.2) := by
  intro es
  induction es with
  | nil => intro step acc al h; rfl
  | cons v vs ih =>
    intro step acc al h
    by_cases hq : q v <;> simp [foldDrive, applyF, List.filter_cons, hq, ih]

/-- `chainApply` is the right fold of `transducer_apply` over the
transducer array, seeded with the downstream step. -/
theorem chainApply_eq_foldr :
    ∀ (ts : List Trans) (step : Red), chainApply ts step = ts.foldr transApply step := by
  intro ts
  induction ts with
  | nil => intro step; rfl
  | cons t ts ih => intro step; simp [chainApply, List.foldr, ih]

/-- Head/tail view of the borrowed element list over a buffer. -/
theorem elemsFrom_succ (c m : Nat) :
    elemsFrom c (m + 1) =
      { type_tag := TTAG_FLOAT, element_size := 4, address := some c,
        allocator := none } :: elemsFrom (c + 4) m := by
  simp [elemsFrom, List.range'_succ]

/-- Projection: the zero operation of the packaged closed reducers. -/
theorem redReducer_zero (al : Nat) (s : Red × Heap) :
    (redReducer al).zero s = (zeroF s.1, s) := rfl

/-- Projection: the apply operation of the packaged closed reducers. -/
theorem redReducer_apply (al : Nat) (v acc : Value) (s : Red × Heap) :
    (redReducer al).apply v acc s =
      ((applyF s.1 v acc al s.2).1,
       (applyF s.1 v acc al s.2).2.1, (applyF s.1 v acc al s.2).2.2) := rfl

/-- Driving loop of `reduceStream` over a single-segment float stream
with `m` elements left: it folds exactly the remaining borrowed element
Values and leaves the stream in the exhausted terminal state. -/
theorem reduceLoop_floatArray :
    ∀ (m c s al fuel : Nat) (red : Red) (acc : Value) (h : Heap),
      m + 1 ≤ fuel →
      reduceLoop fuel
        { type_tag := TTAG_FLOAT, element_size := 4, start := s,
          end_ := c + 4 * m, cursor := c,
          error := StreamErrorCode.S_NoError, next := NextFn.floatArrayNext }
        (redReducer al) acc (red, h)
      = ((foldDrive (elemsFrom c m) red acc al h).1, exhaustedVSR,
         (foldDrive (elemsFrom c m) red acc al h).2.1,
         (foldDrive (elemsFrom c m) red acc al h).2.2) := by
  intro m
  induction m with
  | zero =>
    intro c s al fuel red acc h hf
    obtain ⟨f, rfl⟩ : ∃ f, fuel = f + 1 := ⟨fuel - 1, by omega⟩
    simp [reduceLoop, nextValueVSR, vsrLoop, runNextFn, failVSR,
      zerosVSRNextRun, exhaustedVSR, elemsFrom, foldDrive]
  | succ m ih =>
    intro c s al fuel red acc h hf
    obtain ⟨f, rfl⟩ : ∃ f, fuel = f + 1 := ⟨fuel - 1, by omega⟩
    have hcl : c < c + 4 * (m + 1) := by omega
    have hpull :
        nextValueVSR
          { type_tag := TTAG_FLOAT, element_size := 4, start := s,
            end_ := c + 4 * (m + 1), cursor := c,
            error := StreamErrorCode.S_NoError, next := NextFn.floatArrayNext }
        = ({ type_tag := TTAG_FLOAT, element_size := 4, address := some c,
             allocator := none },
           { type_tag := TTAG_FLOAT, element_size := 4, start := s,
             end_ := c + 4 * (m + 1), cursor := c + 4,
             error := StreamErrorCode.S_NoError, next := NextFn.floatArrayNext }) := by
      rw [nextValueVSR_serve _ rfl hcl]
    rw [elemsFrom_succ]
    simp only [reduceLoop, hpull, redReducer_apply, foldDrive, reduceIte]
    rw [show c + 4 * (m + 1) = (c + 4) + 4 * m by omega]
    rw [ih (c + 4) s al f _ _ _ (Nat.le_of_succ_le_succ hf)]

/-! Claim theorems. -/

/-- C1: for every stream range, reducer and allocator/reducer state,
`reduceStream` computes exactly the fold of the spec's driving algorithm:
seed with `reducer.zero`, pull with `pullNext`, stop as soon as
`range.error` is not `NoError` without applying the reducer to the
sentinel element, otherwise fold with `reducer.apply` and return the
final accumulator — the two fueled loops agree at every fuel. -/
theorem reduceStream_matches_spec_fold {σ : Type} (fuel : Nat)
    (r : ValueStreamRange) (red : AbsReducer σ) (s : σ) :
    reduceStream fuel r red s = specReduce fuel r red s := by
  simp [reduceStream, specReduce, reduceLoop_eq_specReduceLoop]

/-- C2: a single `nextValueVSR` pull behaves as specified: with no error
and the cursor inside the segment it returns a borrowed Value (tag and
element size copied from the range, address the old cursor, no
allocator) and advances the cursor by `element_size`; with the cursor at
or past the end it invokes the installed advance capability and retries;
with a latched error it returns the Null-tagged sentinel and leaves the
range untouched. -/
theorem nextValueVSR_pull_cases (r : ValueStreamRange) :
    nextValueVSR r =
      if r.error = StreamErrorCode.S_NoError then
        if r.cursor < r.end_ then
          ({ type_tag := r.type_tag, element_size := r.element_size,
             address := some r.cursor, allocator := none },
           { r with cursor := r.cursor + r.element_size })
        else nextValueVSR (runNextFn r.next r)
      else (vsrStaticZero, r) := by
  by_cases he : r.error = StreamErrorCode.S_NoError
  · by_cases hc : r.cursor < r.end_
    · rw [if_pos he, if_pos hc, nextValueVSR_serve r he hc]
    · rw [if_pos he, if_neg hc, nextValueVSR_advance r he hc]
  · rw [if_neg he, nextValueVSR_error r he]

/-- C3: over a `floatArrayVSR` stream of `n` floats, the first `n` pulls
return the buffer elements in order as borrowed Values with `error`
still `NoError`; the `(n+1)`-th pull latches `error` to `ReadPastEnd`
(installing the safe zeros segment); every later pull returns the
sentinel and leaves the state — error included — unchanged.  Each
borrowed address `base + 4*k` with `k < n` lies inside the original
buffer, and after exhaustion the returned sentinel carries no address,
so no pull ever reads outside the installed segments. -/
theorem floatArrayVSR_pull_trace (base n k : Nat) :
    pullRes (floatArrayVSR base n) k =
      (if k < n then
        { type_tag := TTAG_FLOAT, element_size := 4,
          address := some (base + 4 * k), allocator := none }
       else vsrStaticZero)
    ∧ pullState (floatArrayVSR base n) k =
      (if k ≤ n then { floatArrayVSR base n with cursor := base + 4 * k }
       else exhaustedVSR) := by
  refine ⟨?_, pullState_floatArrayVSR base n k⟩
  rw [pullRes, pullState_floatArrayVSR base n k]
  by_cases hk : k ≤ n
  · rw [if_pos hk]
    by_cases hlt : k < n
    · rw [nextValueVSR_serve _ rfl (by simp [floatArrayVSR]; omega), if_pos hlt]
      simp [floatArrayVSR]
    · have hkn : k = n := by omega
      subst hkn
      rw [nextValueVSR_advance _ rfl (by simp [floatArrayVSR])]
      have hs :
          runNextFn ({ floatArrayVSR base k with
              cursor := base + 4 * k } : ValueStreamRange).next
            { floatArrayVSR base k with cursor := base + 4 * k }
          = exhaustedVSR := by
        simp [floatArrayVSR, runNextFn, failVSR, zerosVSRNextRun, exhaustedVSR]
      rw [hs, nextValueVSR_error _ (by simp [exhaustedVSR]), if_neg hlt]
  · rw [if_neg hk, nextValueVSR_error _ (by simp [exhaustedVSR]),
      if_neg (by omega)]

/-- C4: the composing transducer's apply wraps the chain built by folding
the transducer array from last to first over the downstream step; the
produced reducer forwards every `(input, current)` pair to `chain[0]`;
driving any element sequence through `compose([A, B])` applied to `step`
behaves element for element like driving it through
`A.apply(B.apply(step))`; and the composed reducer's own zero is Null. -/
theorem composing_transducer_chain
    (ts : List Trans) (step : Red) (A B : Trans) (es : List Value)
    (v c acc : Value) (al : Nat) (h : Heap) :
    transApply (Trans.composingT ts) step = Red.composing (chainApply ts step)
    ∧ chainApply ts step = ts.foldr transApply step
    ∧ applyF (Red.composing (chainApply ts step)) v c al h =
        ((applyF (chainApply ts step) v c al h).1,
         Red.composing (applyF (chainApply ts step) v c al h).2.1,
         (applyF (chainApply ts step) v c al h).2.2)
    ∧ foldDrive es (transApply (Trans.composingT [A, B]) step) acc al h =
        ((foldDrive es (transApply A (transApply B step)) acc al h).1,
         Red.composing (foldDrive es (transApply A (transApply B step)) acc al h).2.1,
         (foldDrive es (transApply A (transApply B step)) acc al h).2.2)
    ∧ zeroF (transApply (Trans.composingT ts) step) = nullValue := by
  refine ⟨by simp [transApply], chainApply_eq_foldr ts step, by simp [applyF],
    ?_, by simp [transApply, zeroF]⟩
  have hAB : transApply (Trans.composingT [A, B]) step
      = Red.composing (transApply A (transApply B step)) := by
    simp [transApply, chainApply]
  rw [hAB, foldDrive_composing]

/-- C5: the filtering reducer delegates to `step.apply(input, current)`
when the predicate holds and returns `current` unchanged (without
invoking the step) when it fails; consequently, over any driven element
sequence, the elements reaching the downstream step are exactly those
satisfying the predicate, in source order. -/
theorem filtering_reducer_spec (p : Value → Mem → Bool) (step : Red)
    (v c : Value) (al : Nat) (h : Heap) (q : Value → Bool)
    (es : List Value) (acc : Value) :
    applyF (Red.filtering p step) v c al h =
      (if p v h.mem then
        ((applyF step v c al h).1,
         Red.filtering p (applyF step v c al h).2.1,
         (applyF step v c al h).2.2)
       else (c, Red.filtering p step, h))
    ∧ foldDrive es (Red.filtering (fun x _ => q x) step) acc al h =
        ((foldDrive (es.filter q) step acc al h).1,
         Red.filtering (fun x _ => q x) (foldDrive (es.filter q) step acc al h).2.1,
         (foldDrive (es.filter q) step acc al h).2.2) := by
  refine ⟨?_, foldDrive_filtering q es step acc al h⟩
  by_cases hp : p v h.mem <;> simp [applyF, hp]

/-- C6: the mapping transducer's reducer carries a mutable inner
accumulator initialized from the inner reducer's zero at construction,
and each apply first updates it to `inner.apply(input, innerAcc)` and
then forwards the updated accumulator as the input of
`step.apply(innerAcc, current)`. -/
theorem mapping_reducer_spec (inner step : Red) (acc v c : Value)
    (al : Nat) (h : Heap) :
    transApply (Trans.mappingT inner) step = Red.mapping inner (zeroF inner) step
    ∧ applyF (Red.mapping inner acc step) v c al h =
        ((applyF step (applyF inner v acc al h).1 c al (applyF inner v acc al h).2.2).1,
         Red.mapping (applyF inner v acc al h).2.1 (applyF inner v acc al h).1
           (applyF step (applyF inner v acc al h).1 c al (applyF inner v acc al h).2.2).2.1,
         (applyF step (applyF inner v acc al h).1 c al (applyF inner v acc al h).2.2).2.2) :=
  ⟨by simp [transApply], by simp [applyF]⟩

/-- C7: reducing the stream `[-1, 1, -2, 2, 3, -3, 4, -4]` through the
pipeline (filter: positive floats) → (map: running-sum reducer) applied
to an identity-like terminal step yields a final accumulator tagged
`Float` whose payload is `10`. -/
theorem filter_accumulate_scenario :
    (reduceStreamR 9 (floatArrayVSR 512 8) demoPipeline 0 demoHeap).1.type_tag
      = TTAG_FLOAT
    ∧ readFM (reduceStreamR 9 (floatArrayVSR 512 8) demoPipeline 0 demoHeap).2.2.2.mem
        (reduceStreamR 9 (floatArrayVSR 512 8) demoPipeline 0 demoHeap).1.address
      = 10 := by
  constructor <;> decide

/-- C8: `floatValue` allocates the payload (stored at the fresh address)
and tags the result `Float` with the float's width, but the compound
literal omits the `.allocator` designated initializer, so the returned
Value records no allocator — the handle the spec calls owned comes back
with the allocator field NULL. -/
theorem floatValue_drops_allocator (f : Int) (al : Nat) (h : Heap) :
    (floatValue f al h).1 =
      { type_tag := TTAG_FLOAT, element_size := 4, address := some h.next,
        allocator := none }
    ∧ (floatValue f al h).2.mem h.next = f :=
  ⟨rfl, by simp [floatValue]⟩

/-- C9: releasing a Value that records no allocator is inert on memory —
no allocator free is invoked and the heap is untouched (only the handle's
address and allocator fields are cleared); only an owned Value has its
payload freed through the recorded allocator. -/
theorem freeValue_release_spec (v : Value) (h : Heap) :
    (v.allocator = none →
      freeValue v h = ({ v with address := none, allocator := none }, h))
    ∧ (∀ a addr, v.allocator = some a → v.address = some addr →
        freeValue v h =
          ({ v with address := none, allocator := none },
           { h with freed := addr :: h.freed })) := by
  constructor
  · intro hn; simp [freeValue, allocator_free, hn]
  · intro a addr ha haddr; simp [freeValue, allocator_free, ha, haddr]

/-- Witness for C9 at a borrowed Value and at an owned Value. -/
theorem freeValue_release_spec_witness :
    freeValue (Value.mk 1 4 (some 512) none)
      (Heap.mk (fun _ => 0) 1024 [])
      = (Value.mk 1 4 none none, Heap.mk (fun _ => 0) 1024 [])
    ∧ freeValue (Value.mk 1 4 (some 512) (some 7))
      (Heap.mk (fun _ => 0) 1024 [])
      = (Value.mk 1 4 none none, Heap.mk (fun _ => 0) 1024 [512]) :=
  ⟨(freeValue_release_spec _ _).1 rfl,
   (freeValue_release_spec _ _).2 7 512 rfl rfl⟩

/-- C10: for every float buffer, transducer pipeline, allocator and heap,
`transduceFloatArray` and the stream driver (`floatArrayVSR` +
`reduceStream` with the pipeline applied to the identity reducer) return
the same final accumulator Value — same handle, hence same tag — with
the same float payload in the resulting heap. -/
theorem transduceFloatArray_refines_reduceStream
    (base n : Nat) (t : Trans) (al : Nat) (h : Heap) (fuel : Nat)
    (hf : n + 1 ≤ fuel) :
    (reduceStreamR fuel (floatArrayVSR base n) (transApply t Red.idR) al h).1
      = (transduceFloatArray base n t al h).1
    ∧ readFM (reduceStreamR fuel (floatArrayVSR base n)
          (transApply t Red.idR) al h).2.2.2.mem
        (reduceStreamR fuel (floatArrayVSR base n)
          (transApply t Red.idR) al h).1.address
      = readFM (transduceFloatArray base n t al h).2.2.mem
          (transduceFloatArray base n t al h).1.address := by
  have hmain :
      reduceStreamR fuel (floatArrayVSR base n) (transApply t Red.idR) al h
        = ((transduceFloatArray base n t al h).1, exhaustedVSR,
           (transduceFloatArray base n t al h).2.1,
           (transduceFloatArray base n t al h).2.2) := by
    simp only [reduceStreamR, reduceStream, redReducer_zero]
    rw [show floatArrayVSR base n =
        { type_tag := TTAG_FLOAT, element_size := 4, start := base,
          end_ := base + 4 * n, cursor := base,
          error := StreamErrorCode.S_NoError,
          next := NextFn.floatArrayNext } from rfl]
    rw [reduceLoop_floatArray n base base al fuel _ _ _ hf]
    rfl
  rw [hmain]
  exact ⟨rfl, rfl⟩

/-- Witness for C10 at a concrete buffer, pipeline, heap and fuel. -/
theorem transduceFloatArray_refines_reduceStream_witness :
    2 + 1 ≤ 3
    ∧ ((reduceStreamR 3 (floatArrayVSR 512 2)
          (transApply (Trans.composingT []) Red.idR) 0 demoHeap).1
        = (transduceFloatArray 512 2 (Trans.composingT []) 0 demoHeap).1
      ∧ readFM (reduceStreamR 3 (floatArrayVSR 512 2)
            (transApply (Trans.composingT []) Red.idR) 0 demoHeap).2.2.2.mem
          (reduceStreamR 3 (floatArrayVSR 512 2)
            (transApply (Trans.composingT []) Red.idR) 0 demoHeap).1.address
        = readFM (transduceFloatArray 512 2 (Trans.composingT []) 0 demoHeap).2.2.mem
            (transduceFloatArray 512 2 (Trans.composingT []) 0 demoHeap).1.address) :=
  ⟨by decide,
   transduceFloatArray_refines_reduceStream 512 2 (Trans.composingT [])
     0 demoHeap 3 (by decide)⟩

end Transducers
